import Mathlib

/-!
Shallow embedding of `src/vscode_integration.py` (VS Code extension
integration for an MCP server): the `CodeChunk` pydantic model, the
`VSCodeIntegration.chunk_storage` dict, the `POST /index/chunk` handler
`receive_code_chunk`, the `GET /index/status` handler `indexing_status`,
and the helper `_process_chunk`.

Conventions of the embedding:
* Python strings are Lean `String`s; character-level operations
  (`split`, slicing, `startswith`) are modelled on `String.data`
  (`List Char`), matching Python's code-point semantics.
* The dict `chunk_storage` (path -> list of chunk dicts) is an
  insertion-ordered association list, matching Python dict semantics:
  `len(chunk_storage)` is the number of keys, lookup is by key, and a
  new key is appended at the end.
* `datetime.utcnow().isoformat()` is an environment-supplied string,
  passed in as a `now` parameter.
* The request body of `receive_code_chunk` is modelled at the point
  after `await request.body()`: either `json.loads` raises
  (`malformed`), or the JSON is fine but `CodeChunk(**chunk_data)`
  raises a pydantic validation error (`badShape e`, carrying `str(e)`)
  — that exception is NOT a `json.JSONDecodeError`, so in the source it
  falls through to the generic `except Exception` branch — or parsing
  succeeds with a `CodeChunk` (`valid`).
* The static `endpoints` description map in the status body is elided;
  it carries no state.
-/

namespace VSCode

/-- The `CodeChunk` pydantic model: `path`, `idx`, `content`, all required. -/
structure CodeChunk where
  path : String
  idx : Int
  content : String
deriving Repr, DecidableEq

/-- One stored chunk dict: `{"idx": ..., "content": ..., "timestamp": ...}`
as appended by `_process_chunk`. -/
structure ChunkRecord where
  idx : Int
  content : String
  timestamp : String
deriving Repr, DecidableEq

/-- `self.chunk_storage`: a Python dict mapping file path to the list of
chunk records, modelled as an insertion-ordered association list with
unique keys. -/
abbrev Storage := List (String × List ChunkRecord)

/-- Dict lookup: `chunk_storage[file_key]` / `file_key in chunk_storage`. -/
def findLog : Storage → String → Option (List ChunkRecord)
  | [], _ => none
  | (k, l) :: rest, p => if k = p then some l else findLog rest p

/-- Lines 136-143 of the source: `if file_key not in self.chunk_storage:
self.chunk_storage[file_key] = []` followed by
`self.chunk_storage[file_key].append(record)`.  A missing key is created
at the end of the dict (Python insertion order); an existing key keeps
its position and its list grows by one at the end. -/
def storeChunk : Storage → String → ChunkRecord → Storage
  | [], p, r => [(p, [r])]
  | (k, l) :: rest, p, r =>
    if k = p then (k, l ++ [r]) :: rest else (k, l) :: storeChunk rest p r

/-- `len(self.chunk_storage)`: the number of keys (distinct paths). -/
def numPaths (st : Storage) : Nat := st.length

/-- Total number of stored chunk records across all paths
(the spec's `snapshot().total_chunks`). -/
def totalChunks (st : Storage) : Nat := (st.map (fun e => e.2.length)).sum

/-- Python `s.split(sep)` for a one-character separator: splits at every
occurrence of `sep`; the result always has (number of occurrences + 1)
pieces, so it is never empty — `"".split(sep) == [""]` in Python. -/
def pySplit (sep : Char) : List Char → List (List Char)
  | [] => [[]]
  | c :: cs =>
    let r := pySplit sep cs
    if c = sep then [] :: r else (c :: r.headD []) :: r.tail

/-- Line 146: `chunk.path.split('.')[-1] if '.' in chunk.path else ''`. -/
def fileExtension (path : String) : String :=
  if path.data.contains '.' then ((pySplit '.' path.data).getLastD []).asString
  else ""

/-- Line 155: `len(chunk.content.split('\n'))`. -/
def linesCount (s : String) : Nat := (pySplit '\n' s.data).length

/-- Lines 160-169: the language tag chosen from the file extension
(`if file_extension == 'py'` / `elif file_extension in ['ts', 'js']`). -/
def languageOf (path : String) : String :=
  if fileExtension path = "py" then "python"
  else if fileExtension path = "ts" ∨ fileExtension path = "js" then
    "typescript/javascript"
  else "generic"

/-- Lines 160-170: the `analysis` field chosen from the file extension. -/
def analysisOf (path : String) : String :=
  if fileExtension path = "py" then "Python file processed"
  else if fileExtension path = "ts" ∨ fileExtension path = "js" then
    "TypeScript/JavaScript file processed"
  else "Generic file processed"

/-- The `result` dict built by `_process_chunk` (lines 150-170). -/
structure ProcessingResult where
  file_path : String
  chunk_index : Int
  file_extension : String
  content_length : Nat
  lines_count : Nat
  processed_at : String
  language : String
  analysis : String
deriving Repr, DecidableEq

/-- `_process_chunk` (lines 123-173): append the record to the storage,
then build the result dict.  Never fails on a well-typed `CodeChunk`. -/
def processChunk (st : Storage) (chunk : CodeChunk) (now : String) :
    Storage × ProcessingResult :=
  let st' := storeChunk st chunk.path
    { idx := chunk.idx, content := chunk.content, timestamp := now }
  (st',
   { file_path := chunk.path
     chunk_index := chunk.idx
     file_extension := fileExtension chunk.path
     content_length := chunk.content.length
     lines_count := linesCount chunk.content
     processed_at := now
     language := languageOf chunk.path
     analysis := analysisOf chunk.path })

/-- The request body as seen by `receive_code_chunk` after
`json.loads(body)` and `CodeChunk(**chunk_data)`. -/
inductive RequestBody where
  | malformed : RequestBody
  | badShape : String → RequestBody
  | valid : CodeChunk → RequestBody

/-- A JSON response body: either `{"error": msg}` or
`{"status": "ok", "message": msg, "result": result}`. -/
inductive RespBody where
  | err : String → RespBody
  | ok : String → ProcessingResult → RespBody
deriving Repr, DecidableEq

/-- Whether the body is an `{"error": ...}` body. -/
def RespBody.isErr : RespBody → Bool
  | .err _ => true
  | .ok _ _ => false

/-- A `JSONResponse` with its HTTP status code. -/
structure Response where
  body : RespBody
  status_code : Nat
deriving Repr, DecidableEq

/-- Python `auth_header.startswith("Bearer ")`, on code points. -/
def isPre : List Char → List Char → Bool
  | [], _ => true
  | _ :: _, [] => false
  | a :: as, b :: bs => a = b && isPre as bs

/-- Python `auth_header[7:]`: drop the `"Bearer "` prefix. -/
def bearerToken (h : String) : String := (h.data.drop 7).asString

/-- `receive_code_chunk` (lines 45-97).  Inputs: the optional
`auth_manager` (as its `validate_api_key` capability), the current
`chunk_storage`, the parsed body, the optional `Authorization` header,
and the current time.  Output: the updated storage and the
`JSONResponse`.

Control flow matches the source: parse errors first
(`json.JSONDecodeError` → 400; a pydantic shape error is caught by the
generic `except Exception` → 500), then the auth gate (note Python
truthiness: a `None` or empty header, or one without the `"Bearer "`
prefix, takes the `Authorization header required` branch), then
`_process_chunk` and the 200 response. -/
def receiveCodeChunk (authManager : Option (String → Bool)) (st : Storage)
    (body : RequestBody) (authHeader : Option String) (now : String) :
    Storage × Response :=
  match body with
  | .malformed => (st, ⟨.err "Invalid JSON", 400⟩)
  | .badShape e => (st, ⟨.err ("Processing error: " ++ e), 500⟩)
  | .valid chunk =>
    let pr := processChunk st chunk now
    let proceed : Storage × Response :=
      (pr.1, ⟨.ok ("Processed chunk " ++ toString chunk.idx ++ " from "
                    ++ chunk.path) pr.2, 200⟩)
    match authManager with
    | none => proceed
    | some validate =>
      match authHeader with
      | none => (st, ⟨.err "Authorization header required", 401⟩)
      | some h =>
        if isPre "Bearer ".data h.data then
          if validate (bearerToken h) then proceed
          else (st, ⟨.err "Invalid API key", 401⟩)
        else (st, ⟨.err "Authorization header required", 401⟩)

/-- The status body built by `indexing_status` (lines 100-114); the
static `endpoints` map is elided.  `chunks_processed` is
`len(self.chunk_storage)`. -/
structure StatusBody where
  service : String
  status : String
  timestamp : String
  chunks_processed : Nat
deriving Repr, DecidableEq

/-- `indexing_status` (lines 100-114): always the healthy body, since
computing it cannot fail. -/
def indexingStatus (st : Storage) (now : String) : StatusBody :=
  { service := "vscode-mcp-integration"
    status := "healthy"
    timestamp := now
    chunks_processed := numPaths st }

example : fileExtension "a.py" = "py" := by decide
example : fileExtension "a" = "" := by decide
example : fileExtension "a.b.py" = "py" := by decide
example : linesCount "" = 1 := by decide
example : linesCount "x=1" = 1 := by decide
example : linesCount "a\nb" = 2 := by decide

/-! ### Lemmas about the storage map -/

theorem findLog_storeChunk_self (st : Storage) (p : String) (r : ChunkRecord) :
    findLog (storeChunk st p r) p = some ((findLog st p).getD [] ++ [r]) := by
  induction st with
  | nil => simp [storeChunk, findLog]
  | cons e rest ih =>
    obtain ⟨k, l⟩ := e
    by_cases h : k = p
    · simp [storeChunk, findLog, h]
    · simp [storeChunk, findLog, h, ih]

theorem findLog_storeChunk_ne (st : Storage) (p q : String) (r : ChunkRecord)
    (h : q ≠ p) : findLog (storeChunk st p r) q = findLog st q := by
  induction st with
  | nil => simp [storeChunk, findLog, Ne.symm h]
  | cons e rest ih =>
    obtain ⟨k, l⟩ := e
    by_cases hk : k = p
    · subst hk
      simp [storeChunk, findLog, Ne.symm h]
    · by_cases hq : k = q
      · simp [storeChunk, findLog, hk, hq, h]
      · simp [storeChunk, findLog, hk, hq, ih]

theorem totalChunks_storeChunk (st : Storage) (p : String) (r : ChunkRecord) :
    totalChunks (storeChunk st p r) = totalChunks st + 1 := by
  induction st with
  | nil => simp [storeChunk, totalChunks]
  | cons e rest ih =>
    obtain ⟨k, l⟩ := e
    by_cases h : k = p
    · simp only [storeChunk, if_pos h, totalChunks, List.map_cons, List.sum_cons,
        List.length_append, List.length_singleton]
      omega
    · simp only [storeChunk, if_neg h, totalChunks, List.map_cons, List.sum_cons] at ih ⊢
      omega

/-! ### Lemmas about `pySplit` -/

theorem pySplit_cons_sep (sep : Char) (cs : List Char) :
    pySplit sep (sep :: cs) = [] :: pySplit sep cs := by
  simp [pySplit]

theorem pySplit_cons_ne (sep c : Char) (cs : List Char) (h : ¬ c = sep) :
    pySplit sep (c :: cs) =
      (c :: (pySplit sep cs).headD []) :: (pySplit sep cs).tail := by
  simp [pySplit, h]

theorem pySplit_ne_nil (sep : Char) (l : List Char) : pySplit sep l ≠ [] := by
  cases l with
  | nil => simp [pySplit]
  | cons c cs =>
    simp only [pySplit]
    split <;> simp

theorem pySplit_no_sep (sep : Char) (l : List Char) (h : sep ∉ l) :
    pySplit sep l = [l] := by
  induction l with
  | nil => rfl
  | cons c cs ih =>
    have hc : ¬ c = sep := fun hh => h (hh ▸ List.mem_cons_self c cs)
    have hcs : sep ∉ cs := fun hh => h (List.mem_cons_of_mem c hh)
    simp [pySplit, hc, ih hcs]

theorem two_le_pySplit_length (sep : Char) (l : List Char) (h : sep ∈ l) :
    2 ≤ (pySplit sep l).length := by
  induction l with
  | nil => cases h
  | cons c cs ih =>
    by_cases hc : c = sep
    · have h1 : 1 ≤ (pySplit sep cs).length :=
        List.length_pos.mpr (pySplit_ne_nil sep cs)
      subst hc
      rw [pySplit_cons_sep, List.length_cons]
      omega
    · have hmem : sep ∈ cs := by
        cases List.mem_cons.mp h with
        | inl hh => exact absurd hh.symm hc
        | inr hh => exact hh
      have h2 := ih hmem
      have hnil := pySplit_ne_nil sep cs
      rw [pySplit_cons_ne sep c cs hc, List.length_cons]
      cases hr : pySplit sep cs with
      | nil => exact absurd hr hnil
      | cons a t =>
        rw [hr] at h2
        simp only [List.length_cons, List.tail_cons] at h2 ⊢
        omega

theorem pySplit_getLastD_append (sep : Char) (xs ys : List Char) (h : sep ∉ ys) :
    (pySplit sep (xs ++ sep :: ys)).getLastD [] = ys := by
  induction xs with
  | nil =>
    rw [List.nil_append, pySplit_cons_sep, pySplit_no_sep sep ys h,
      List.getLastD_cons, List.getLastD_cons, List.getLastD_nil]
  | cons c cs ih =>
    by_cases hc : c = sep
    · subst hc
      rw [List.cons_append, pySplit_cons_sep, List.getLastD_cons]
      exact ih
    · rw [List.cons_append, pySplit_cons_ne sep c _ hc, List.getLastD_cons]
      have h2 : 2 ≤ (pySplit sep (cs ++ sep :: ys)).length :=
        two_le_pySplit_length sep _
          (List.mem_append_right cs (List.mem_cons_self sep ys))
      cases hr : pySplit sep (cs ++ sep :: ys) with
      | nil => exact absurd hr (pySplit_ne_nil _ _)
      | cons a t =>
        rw [hr] at ih h2
        cases t with
        | nil => simp at h2
        | cons b t2 =>
          rw [List.getLastD_cons, List.getLastD_cons] at ih
          simp only [List.tail_cons]
          rw [List.getLastD_cons]
          exact ih

/-! ### Claim theorems -/

/-- C1: the spec claims the status endpoint's `chunks_processed` equals the
total number of ChunkRecords across all paths.  The code computes
`len(self.chunk_storage)`, the number of distinct paths.  After two
successful submissions to the same path `"/a/b.py"` (idx 0 then idx 1),
two ChunkRecords are stored, yet `chunks_processed` is 1, not 2. -/
theorem c1_chunks_processed_counts_paths :
    (receiveCodeChunk none [] (.valid ⟨"/a/b.py", 0, "x=1"⟩) none "t1").2.status_code
        = 200 ∧
    (receiveCodeChunk none
        (receiveCodeChunk none [] (.valid ⟨"/a/b.py", 0, "x=1"⟩) none "t1").1
        (.valid ⟨"/a/b.py", 1, "y=2"⟩) none "t2").2.status_code = 200 ∧
    totalChunks (receiveCodeChunk none
        (receiveCodeChunk none [] (.valid ⟨"/a/b.py", 0, "x=1"⟩) none "t1").1
        (.valid ⟨"/a/b.py", 1, "y=2"⟩) none "t2").1 = 2 ∧
    (indexingStatus (receiveCodeChunk none
        (receiveCodeChunk none [] (.valid ⟨"/a/b.py", 0, "x=1"⟩) none "t1").1
        (.valid ⟨"/a/b.py", 1, "y=2"⟩) none "t2").1 "t3").chunks_processed = 1 := by
  refine ⟨rfl, rfl, rfl, rfl⟩

/-- C2 counterexample: a body that is valid JSON but violates
`CodeChunk`'s shape (modelled by `RequestBody.badShape`, the pydantic
validation error) is answered with status 500 — not the client-error
status 400 the claim states — because the source only maps
`json.JSONDecodeError` to 400 and the pydantic error falls into the
generic `except Exception` branch.  The storage is untouched. -/
theorem c2_badshape_counterexample :
    (receiveCodeChunk none [] (.badShape "field required") none "t").2.status_code
        = 500 ∧
    ¬ (receiveCodeChunk none [] (.badShape "field required") none "t").2.status_code
        = 400 := by
  refine ⟨rfl, by decide⟩

/-- C2 amended: a syntactically-valid-JSON body that violates
ChunkRequest's shape is answered with SERVER-error status 500 and an
`{"error": ...}` body, and the storage is not touched. -/
theorem c2_badshape_500_no_side_effect (auth : Option (String → Bool))
    (st : Storage) (e : String) (hdr : Option String) (now : String) :
    receiveCodeChunk auth st (.badShape e) hdr now
      = (st, ⟨.err ("Processing error: " ++ e), 500⟩) := rfl

/-- C3 counterexample: submitting the identical chunk
`{"path": "/a/b.py", "idx": 0, "content": "x=1"}` twice does NOT double
the status endpoint's reported count: `chunks_processed` is 1 after one
submission and still 1 (not 2) after the duplicate, because the code
reports the number of distinct paths. -/
theorem c3_duplicate_does_not_double_reported_count :
    (indexingStatus
        (receiveCodeChunk none [] (.valid ⟨"/a/b.py", 0, "x=1"⟩) none "t1").1
        "t").chunks_processed = 1 ∧
    (indexingStatus
        (receiveCodeChunk none
          (receiveCodeChunk none [] (.valid ⟨"/a/b.py", 0, "x=1"⟩) none "t1").1
          (.valid ⟨"/a/b.py", 0, "x=1"⟩) none "t2").1 "t").chunks_processed = 1 ∧
    ¬ (indexingStatus
        (receiveCodeChunk none
          (receiveCodeChunk none [] (.valid ⟨"/a/b.py", 0, "x=1"⟩) none "t1").1
          (.valid ⟨"/a/b.py", 0, "x=1"⟩) none "t2").1 "t").chunks_processed = 2 := by
  refine ⟨rfl, rfl, by decide⟩

/-- C3 amended: submitting the same chunk twice produces two
ChunkRecords in the log for that path (append-only, no deduplication),
doubling the number of stored ChunkRecords relative to a single
submission (1 to 2); the two records are distinct values whenever their
receipt timestamps differ; but the status endpoint's reported
`chunks_processed` stays 1, since it counts distinct paths. -/
theorem c3_duplicate_appends_two_records (c : CodeChunk) (t1 t2 : String) :
    findLog (receiveCodeChunk none
        (receiveCodeChunk none [] (.valid c) none t1).1
        (.valid c) none t2).1 c.path
      = some [⟨c.idx, c.content, t1⟩, ⟨c.idx, c.content, t2⟩] ∧
    totalChunks (receiveCodeChunk none [] (.valid c) none t1).1 = 1 ∧
    totalChunks (receiveCodeChunk none
        (receiveCodeChunk none [] (.valid c) none t1).1
        (.valid c) none t2).1 = 2 ∧
    (indexingStatus (receiveCodeChunk none
        (receiveCodeChunk none [] (.valid c) none t1).1
        (.valid c) none t2).1 t2).chunks_processed = 1 ∧
    (t1 ≠ t2 →
      (⟨c.idx, c.content, t1⟩ : ChunkRecord) ≠ ⟨c.idx, c.content, t2⟩) := by
  refine ⟨?_, ?_, ?_, ?_, ?_⟩
  · simp [receiveCodeChunk, processChunk, storeChunk, findLog]
  · simp [receiveCodeChunk, processChunk, storeChunk, totalChunks]
  · simp [receiveCodeChunk, processChunk, storeChunk, totalChunks]
  · simp [receiveCodeChunk, processChunk, storeChunk, indexingStatus, numPaths]
  · intro ht heq
    exact ht (congrArg ChunkRecord.timestamp heq)

/-- C3 amended, witness at a concrete input. -/
theorem c3_duplicate_appends_two_records_witness :
    findLog (receiveCodeChunk none
        (receiveCodeChunk none [] (.valid ⟨"/a/b.py", 0, "x=1"⟩) none "t1").1
        (.valid ⟨"/a/b.py", 0, "x=1"⟩) none "t2").1 "/a/b.py"
      = some [⟨0, "x=1", "t1"⟩, ⟨0, "x=1", "t2"⟩] ∧
    (⟨0, "x=1", "t1"⟩ : ChunkRecord) ≠ ⟨0, "x=1", "t2"⟩ :=
  ⟨(c3_duplicate_appends_two_records ⟨"/a/b.py", 0, "x=1"⟩ "t1" "t2").1,
   (c3_duplicate_appends_two_records ⟨"/a/b.py", 0, "x=1"⟩ "t1" "t2").2.2.2.2
     (by decide)⟩

/-- C9: the documented scenario: POST `/index/chunk` with
`{"path": "/a/b.py", "idx": 0, "content": "x=1"}` and no auth
configured returns 200 with `result.language = "python"`,
`result.content_length = 3`, `result.lines_count = 1` (full response
pinned down). -/
theorem c9_python_chunk_scenario :
    receiveCodeChunk none [] (.valid ⟨"/a/b.py", 0, "x=1"⟩) none "t"
      = ([("/a/b.py", [⟨0, "x=1", "t"⟩])],
         ⟨.ok "Processed chunk 0 from /a/b.py"
            { file_path := "/a/b.py", chunk_index := 0, file_extension := "py",
              content_length := 3, lines_count := 1, processed_at := "t",
              language := "python", analysis := "Python file processed" },
          200⟩) := by
  decide

/-- C10: a valid chunk with empty content yields `content_length = 0`
and `lines_count = 1` (not 0): the line count is the number of
newline-separated segments, which is at least 1 for every string. -/
theorem c10_empty_content_one_line (st : Storage) (p : String) (i : Int)
    (now : String) :
    (processChunk st ⟨p, i, ""⟩ now).2.content_length = 0 ∧
    (processChunk st ⟨p, i, ""⟩ now).2.lines_count = 1 ∧
    ∀ s : String, 1 ≤ linesCount s :=
  ⟨rfl, rfl, fun s => List.length_pos.mpr (pySplit_ne_nil '\n' s.data)⟩

/-- C4: every valid, authenticated chunk request (one whose response is
the 200 success) appends exactly one ChunkRecord at the end of the log
for its `path` (creating the log if absent), and the total ChunkRecord
count across all paths — the spec's `snapshot().total_chunks` — grows by
exactly one. -/
theorem c4_valid_request_appends_exactly_one (auth : Option (String → Bool))
    (st : Storage) (c : CodeChunk) (hdr : Option String) (now : String)
    (h : (receiveCodeChunk auth st (.valid c) hdr now).2.status_code = 200) :
    findLog (receiveCodeChunk auth st (.valid c) hdr now).1 c.path
      = some ((findLog st c.path).getD [] ++ [⟨c.idx, c.content, now⟩]) ∧
    totalChunks (receiveCodeChunk auth st (.valid c) hdr now).1
      = totalChunks st + 1 := by
  cases auth with
  | none =>
    constructor
    · simp [receiveCodeChunk, processChunk, findLog_storeChunk_self]
    · simp [receiveCodeChunk, processChunk, totalChunks_storeChunk]
  | some v =>
    cases hdr with
    | none => simp [receiveCodeChunk] at h
    | some hh =>
      by_cases hp : isPre "Bearer ".data hh.data = true
      · by_cases hv : v (bearerToken hh) = true
        · constructor
          · simp [receiveCodeChunk, processChunk, hp, hv, findLog_storeChunk_self]
          · simp [receiveCodeChunk, processChunk, hp, hv, totalChunks_storeChunk]
        · simp [receiveCodeChunk, hp, hv] at h
      · simp [receiveCodeChunk, hp] at h

/-- C4, witness at a concrete input. -/
theorem c4_valid_request_appends_exactly_one_witness :
    (receiveCodeChunk none [] (.valid ⟨"/a/b.py", 0, "x=1"⟩) none "t").2.status_code
        = 200 ∧
    (findLog (receiveCodeChunk none [] (.valid ⟨"/a/b.py", 0, "x=1"⟩) none "t").1
        "/a/b.py"
      = some ((findLog ([] : Storage) "/a/b.py").getD [] ++ [⟨0, "x=1", "t"⟩]) ∧
    totalChunks (receiveCodeChunk none [] (.valid ⟨"/a/b.py", 0, "x=1"⟩) none "t").1
      = totalChunks ([] : Storage) + 1) :=
  ⟨rfl, c4_valid_request_appends_exactly_one none [] ⟨"/a/b.py", 0, "x=1"⟩ none "t" rfl⟩

/-- C5: every request the handler rejects (any non-200 response — failed
payload parsing, failed shape validation, or failed authentication)
leaves the chunk storage unchanged: same map, same total ChunkRecord
count. -/
theorem c5_rejected_request_leaves_storage_unchanged
    (auth : Option (String → Bool)) (st : Storage) (body : RequestBody)
    (hdr : Option String) (now : String)
    (h : ¬ (receiveCodeChunk auth st body hdr now).2.status_code = 200) :
    (receiveCodeChunk auth st body hdr now).1 = st ∧
    totalChunks (receiveCodeChunk auth st body hdr now).1 = totalChunks st := by
  have hst : (receiveCodeChunk auth st body hdr now).1 = st := by
    cases body with
    | malformed => rfl
    | badShape e => rfl
    | valid c =>
      cases auth with
      | none => exact absurd rfl h
      | some v =>
        cases hdr with
        | none => rfl
        | some hh =>
          by_cases hp : isPre "Bearer ".data hh.data = true
          · by_cases hv : v (bearerToken hh) = true
            · exact absurd (by simp [receiveCodeChunk, hp, hv]) h
            · simp [receiveCodeChunk, hp, hv]
          · simp [receiveCodeChunk, hp]
  exact ⟨hst, by rw [hst]⟩

/-- C5, witness at a concrete input. -/
theorem c5_rejected_request_leaves_storage_unchanged_witness :
    ¬ (receiveCodeChunk none [] .malformed none "t").2.status_code = 200 ∧
    ((receiveCodeChunk none [] .malformed none "t").1 = [] ∧
     totalChunks (receiveCodeChunk none [] .malformed none "t").1
       = totalChunks ([] : Storage)) :=
  ⟨by decide,
   c5_rejected_request_leaves_storage_unchanged none [] .malformed none "t"
     (by decide)⟩

/-- C6: with an authentication capability configured, a missing
`Authorization` header, a header without the `Bearer ` prefix, and a
presented token the capability rejects are all answered with status 401
and an `{"error": ...}` body. -/
theorem c6_auth_failures_return_401 (v : String → Bool) (st : Storage)
    (c : CodeChunk) (now : String) :
    ((receiveCodeChunk (some v) st (.valid c) none now).2.status_code = 401 ∧
     (receiveCodeChunk (some v) st (.valid c) none now).2.body.isErr = true) ∧
    (∀ h : String, isPre "Bearer ".data h.data = false →
      (receiveCodeChunk (some v) st (.valid c) (some h) now).2.status_code = 401 ∧
      (receiveCodeChunk (some v) st (.valid c) (some h) now).2.body.isErr = true) ∧
    (∀ h : String, isPre "Bearer ".data h.data = true →
      v (bearerToken h) = false →
      (receiveCodeChunk (some v) st (.valid c) (some h) now).2.status_code = 401 ∧
      (receiveCodeChunk (some v) st (.valid c) (some h) now).2.body.isErr = true) := by
  refine ⟨⟨rfl, rfl⟩, ?_, ?_⟩
  · intro h hp
    constructor <;> simp [receiveCodeChunk, RespBody.isErr, hp]
  · intro h hp hv
    constructor <;> simp [receiveCodeChunk, RespBody.isErr, hp, hv]

/-- C6, witness at concrete inputs: no header; header "Basic x" (wrong
scheme); header "Bearer bad" with a capability rejecting every token. -/
theorem c6_auth_failures_return_401_witness :
    ((receiveCodeChunk (some fun _ => false) [] (.valid ⟨"/a/b.py", 0, ""⟩)
        none "t").2.status_code = 401 ∧
     (receiveCodeChunk (some fun _ => false) [] (.valid ⟨"/a/b.py", 0, ""⟩)
        none "t").2.body.isErr = true) ∧
    ((receiveCodeChunk (some fun _ => false) [] (.valid ⟨"/a/b.py", 0, ""⟩)
        (some "Basic x") "t").2.status_code = 401 ∧
     (receiveCodeChunk (some fun _ => false) [] (.valid ⟨"/a/b.py", 0, ""⟩)
        (some "Basic x") "t").2.body.isErr = true) ∧
    ((receiveCodeChunk (some fun _ => false) [] (.valid ⟨"/a/b.py", 0, ""⟩)
        (some "Bearer bad") "t").2.status_code = 401 ∧
     (receiveCodeChunk (some fun _ => false) [] (.valid ⟨"/a/b.py", 0, ""⟩)
        (some "Bearer bad") "t").2.body.isErr = true) :=
  ⟨(c6_auth_failures_return_401 (fun _ => false) [] ⟨"/a/b.py", 0, ""⟩ "t").1,
   (c6_auth_failures_return_401 (fun _ => false) [] ⟨"/a/b.py", 0, ""⟩ "t").2.1
     "Basic x" (by decide),
   (c6_auth_failures_return_401 (fun _ => false) [] ⟨"/a/b.py", 0, ""⟩ "t").2.2
     "Bearer bad" (by decide) rfl⟩

/-- C7: the language classification is a pure function of `path`:
extension exactly `py` (the suffix after the last `.`) gives
`"python"`, `ts` or `js` gives `"typescript/javascript"`, any other
extension gives `"generic"`, and a path without a dot has empty
extension; the extension of `pre ++ "." ++ suf` (no dot in `suf`) is
`suf`; with the five documented examples. -/
theorem c7_language_classification :
    (∀ p : String, fileExtension p = "py" → languageOf p = "python") ∧
    (∀ p : String, fileExtension p = "ts" ∨ fileExtension p = "js" →
      languageOf p = "typescript/javascript") ∧
    (∀ p : String, fileExtension p ≠ "py" → fileExtension p ≠ "ts" →
      fileExtension p ≠ "js" → languageOf p = "generic") ∧
    (∀ p : String, p.data.contains '.' = false → fileExtension p = "") ∧
    (∀ xs ys : List Char, '.' ∉ ys →
      fileExtension (String.mk (xs ++ '.' :: ys)) = String.mk ys) ∧
    (languageOf "a.py" = "python" ∧
     languageOf "a.ts" = "typescript/javascript" ∧
     languageOf "a.js" = "typescript/javascript" ∧
     languageOf "a.txt" = "generic" ∧
     languageOf "a" = "generic" ∧ fileExtension "a" = "") := by
  refine ⟨?_, ?_, ?_, ?_, ?_, by decide, by decide, by decide, by decide,
    by decide, by decide⟩
  · intro p hp
    simp only [languageOf]
    rw [hp]
    decide
  · intro p hp
    cases hp with
    | inl hp => simp only [languageOf]; rw [hp]; decide
    | inr hp => simp only [languageOf]; rw [hp]; decide
  · intro p h1 h2 h3
    simp only [languageOf]
    rw [if_neg h1, if_neg (fun hor => hor.elim h2 h3)]
  · intro p hp
    simp only [fileExtension]
    rw [hp, if_neg Bool.false_ne_true]
  · intro xs ys hys
    have hc : (xs ++ '.' :: ys).contains '.' = true :=
      List.elem_eq_true_of_mem
        (List.mem_append_right xs (List.mem_cons_self '.' ys))
    have hdata : (String.mk (xs ++ '.' :: ys)).data = xs ++ '.' :: ys := rfl
    unfold fileExtension
    rw [hdata, hc, if_pos rfl, pySplit_getLastD_append '.' xs ys hys]
    rfl

/-- C7, witness at concrete inputs. -/
theorem c7_language_classification_witness :
    languageOf "a.py" = "python" ∧
    languageOf "a.ts" = "typescript/javascript" ∧
    languageOf "x" = "generic" ∧
    fileExtension "x" = "" ∧
    fileExtension (String.mk ("a".data ++ '.' :: "py".data))
      = String.mk "py".data :=
  ⟨c7_language_classification.1 "a.py" (by decide),
   c7_language_classification.2.1 "a.ts" (Or.inl (by decide)),
   c7_language_classification.2.2.1 "x" (by decide) (by decide) (by decide),
   c7_language_classification.2.2.2.1 "x" (by decide),
   c7_language_classification.2.2.2.2.1 "a".data "py".data (by decide)⟩

/-- C8: the per-path log is append-only in arrival order: `_process_chunk`
stores via a single append at the end of the path's log, logs of other
paths are untouched, and the [2, 0, 1] arrival scenario stores idx
order [2, 0, 1] (not sorted by idx). -/
theorem c8_append_only_arrival_order :
    (∀ (st : Storage) (c : CodeChunk) (now : String),
      (processChunk st c now).1 = storeChunk st c.path ⟨c.idx, c.content, now⟩) ∧
    (∀ (st : Storage) (p : String) (r : ChunkRecord),
      findLog (storeChunk st p r) p = some ((findLog st p).getD [] ++ [r])) ∧
    (∀ (st : Storage) (p q : String) (r : ChunkRecord), q ≠ p →
      findLog (storeChunk st p r) q = findLog st q) ∧
    ((findLog (processChunk (processChunk (processChunk []
        ⟨"/f", 2, "a"⟩ "t1").1 ⟨"/f", 0, "b"⟩ "t2").1
        ⟨"/f", 1, "c"⟩ "t3").1 "/f").getD []).map ChunkRecord.idx
      = [2, 0, 1] :=
  ⟨fun _ _ _ => rfl, findLog_storeChunk_self, findLog_storeChunk_ne, by decide⟩

/-- C8, witness at a concrete input. -/
theorem c8_append_only_arrival_order_witness :
    findLog (storeChunk [("/f", [])] "/f" ⟨0, "x", "t"⟩) "/g"
      = findLog [("/f", [])] "/g" :=
  c8_append_only_arrival_order.2.2.1 [("/f", [])] "/f" "/g" ⟨0, "x", "t"⟩
    (by decide)

end VSCode
